import Mathlib

/-!
Shallow embedding of the resource-discovery, locator and edit-composition core
of the nvidia-container-toolkit repository, together with proofs about the
behaviour of its operations.  Go functions are translated into executable Lean
definitions; filesystem effects (`stat`, `glob`, locator searches, symlink
creation) are passed in as explicit oracles, and Go's `(value, error)` returns
become `Except`/`Option` values.
-/

namespace Nvct

/-- Leading-match test on character lists: the first list is an initial
segment of the second. -/
def listHasPre : List Char → List Char → Bool
  | [], _ => true
  | _ :: _, [] => false
  | p :: ps, c :: cs => p == c && listHasPre ps cs

/-- Model of Go `strings.HasPrefix s pre`. -/
def strStartsWith (s pre : String) : Bool :=
  listHasPre pre.toList s.toList

/-- Model of Go `strings.HasSuffix s suf`. -/
def strEndsWith (s suf : String) : Bool :=
  listHasPre suf.toList.reverse s.toList.reverse

/-- The character length of a string (equal to Go's byte length on the ASCII
paths this code handles). -/
def strLen (s : String) : Nat := s.toList.length

/-- The string without its first `n` characters. -/
def strDrop (s : String) (n : Nat) : String := String.mk (s.toList.drop n)

/-- The string without its last `n` characters. -/
def strDropRight (s : String) (n : Nat) : String :=
  String.mk (s.toList.take (s.toList.length - n))

/-- Model of Go `strings.TrimPrefix s pre`: `s` without the leading `pre` when
present, otherwise `s` unchanged. -/
def trimStart (s pre : String) : String :=
  if strStartsWith s pre then strDrop s (strLen pre) else s

/-- Model of Go `strings.TrimSuffix s suf`: `s` without the trailing `suf` when
present, otherwise `s` unchanged. -/
def trimEnd (s suf : String) : String :=
  if strEndsWith s suf then strDropRight s (strLen suf) else s

/-- Model of Go `path/filepath.Base` for slash-separated paths: trailing
separators are removed and the last path element is returned; the empty path
gives `"."` and an all-separator path gives `"/"`. -/
def filepathBase (path : String) : String :=
  if path = "" then "."
  else
    let rev := path.toList.reverse.dropWhile (· == '/')
    if rev = [] then "/"
    else String.mk (rev.takeWhile (· != '/')).reverse

/-- Model of Go `path/filepath.Dir` on clean slash-separated paths: everything
up to the last separator, with trailing separators removed; a path without a
separator gives `"."` and a root-only directory gives `"/"`. -/
def filepathDir (path : String) : String :=
  let cs := path.toList
  if !cs.contains '/' then "."
  else
    let upto := (cs.reverse.dropWhile (· != '/')).reverse
    let d := (upto.reverse.dropWhile (· == '/')).reverse
    if d = [] then "/" else String.mk d

/-- Occurrence test for the literal `.so` inside a character list: `true` iff
`".so"` occurs as a contiguous substring.  This is the tail `*.so*` of the glob
`lib?*.so*` used by `isLibName`. -/
def hasSo : List Char → Bool
  | [] => false
  | c :: rest => (decide (c = '.' ∧ rest.take 2 = ['s', 'o'])) || hasSo rest

/-- Model of Go `filepath.Match "lib?*.so*" base` for a base name without path
separators: the name starts with `lib`, has at least one further character (the
`?`), and `".so"` occurs somewhere after that character. -/
def matchLibSoGlob (cs : List Char) : Bool :=
  decide (cs.take 3 = ['l', 'i', 'b']) && decide (4 ≤ cs.length) && hasSo (cs.drop 4)

/-- Model of Go `strings.Split base ".so"`: splits around each non-overlapping
instance of `".so"`, scanning left to right. -/
def splitSo : List Char → List (List Char)
  | '.' :: 's' :: 'o' :: rest => [] :: splitSo rest
  | c :: rest =>
    match splitSo rest with
    | [] => [[c]]
    | p :: ps => (c :: p) :: ps
  | [] => [[]]

/-- `isLibName` from the discover package: checks whether the file name is a
library name, i.e. matches `lib?*.so*` and, after the final `".so"` fragment,
the remainder is empty or begins with `"."`. -/
def isLibName (filename : String) : Bool :=
  let base := (filepathBase filename).toList
  if matchLibSoGlob base then
    let parts := splitSo base
    if parts.length == 1 then true
    else
      let lastPart := parts.getLastD []
      lastPart == [] || listHasPre ['.'] lastPart
  else false

/-- `uniqueFolders` from the discover package: the unique set of containing
folders of the specified files, first-seen order preserved.  The Go original
records seen directories in a map; the membership test on the accumulator is
the same check. -/
def uniqueFolders (libraries : List String) : List String :=
  libraries.foldl
    (fun acc l =>
      let dir := filepathDir l
      if dir = "" then acc
      else if acc.contains dir then acc
      else acc ++ [dir])
    []

/-- `discover.Mount`: a bind-mount description. -/
structure Mount where
  hostPath : String
  path : String
  options : List String
deriving DecidableEq

/-- `discover.Hook`: a lifecycle hook the runtime invokes. -/
structure Hook where
  lifecycle : String
  path : String
  args : List String
deriving DecidableEq

/-- `discover.Device`: a discovered device with a container-visible path and a
host-visible path. -/
structure Device where
  hostPath : String
  path : String
deriving DecidableEq

/-- Result of a `lookup.Locator.Locate` call, passed into the functions that
invoke a locator: either the located paths or the locator's error. -/
abbrev LocateResult := Except String (List String)

/-- The fixed default path for the NVIDIA Container Toolkit CLI
(`nvidiaCTKDefaultFilePath` in the discover package). -/
def nvidiaCTKDefaultFilePath : String := "/usr/bin/nvidia-ctk"

/-- `getLibraryPaths` from the discover package: the container paths of the
mounts whose base name is a library name. -/
def getLibraryPaths (mounts : List Mount) : List String :=
  (mounts.filter (fun m => isLibName m.path)).map (fun m => m.path)

/-- `CreateLDCacheUpdateHook` from the discover package.  The locator call
`lookup.Locate(execuable)` is passed in as its result `locate`; the warnings the
Go code logs are returned alongside the hook.  The hook path is the first
locator match, falling back to `defaultPath` (with a warning) when the locator
errors or finds nothing; the argument list starts with the base name of the
hook path followed by `hook update-ldcache` and one `--folder` pair per unique
folder. -/
def CreateLDCacheUpdateHook (locate : LocateResult) (execuable defaultPath : String)
    (libraries : List String) : Hook × List String :=
  let pick : String × List String :=
    match locate with
    | .error e => (defaultPath, ["Failed to locate " ++ execuable ++ ": " ++ e])
    | .ok [] => (defaultPath, [execuable ++ " not found"])
    | .ok (t :: _) => (t, [])
  let hookPath := pick.1
  let args := (uniqueFolders libraries).foldl
    (fun a f => a ++ ["--folder", f])
    [filepathBase hookPath, "hook", "update-ldcache"]
  ({ lifecycle := "createContainer", path := hookPath, args := args }, pick.2)

/-- `ldconfig.Hooks` from the discover package: discovers the wrapped mounts
(whose result is passed in as `mountsResult`), and returns exactly one ldcache
update hook built from the library paths of those mounts.  A mount-discovery
failure is wrapped and surfaced. -/
def ldconfigHooks (mountsResult : Except String (List Mount)) (locate : LocateResult)
    (execuable : String) : Except String (List Hook) :=
  match mountsResult with
  | .error e => .error ("failed to discover mounts for ldcache update: " ++ e)
  | .ok mounts =>
    .ok [(CreateLDCacheUpdateHook locate execuable nvidiaCTKDefaultFilePath
      (getLibraryPaths mounts)).1]

/-- The fields of `unix.Stat_t` that `getRequiredGID` inspects. -/
structure Stat_t where
  mode : Nat
  gid : Nat
deriving DecidableEq

/-- `unix.S_IFMT`: the file-type mask of `st_mode`. -/
def S_IFMT : Nat := 0o170000

/-- `unix.S_IFCHR`: the character-special file type. -/
def S_IFCHR : Nat := 0o020000

/-- `device.getRequiredGID` from the edits package: the group id of the device
if the device is a char device that is not world read/writable; `0` whenever
the information cannot be extracted.  The `unix.Lstat` call is passed in as the
oracle `lstat` (`none` models a stat error).  The function is total: no error
is ever raised. -/
def getRequiredGID (lstat : String → Option Stat_t) (d : Device) : Nat :=
  let path := if d.hostPath = "" then d.path else d.hostPath
  if path = "" then 0
  else
    match lstat path with
    | none => 0
    | some stat =>
      if stat.mode &&& S_IFMT ≠ S_IFCHR then 0
      else if (stat.mode &&& 0o777) &&& 0o6 = 0 then stat.gid
      else 0

/-- The fields of `specs.DeviceNode` that `device.toSpec` fills in. -/
structure DeviceNode where
  hostPath : String
  path : String
deriving DecidableEq

/-- `device.toSpec` from the edits package: converts a discovered device to a
CDI spec device node, clearing `HostPath` when it equals `Path`.  The Go
function's error return is always `nil`, so the conversion is modelled as
total. -/
def Device.toSpec (d : Device) : DeviceNode :=
  let hostPath := if d.hostPath = d.path then "" else d.hostPath
  { hostPath := hostPath, path := d.path }

/-- The aggregate container-edit model (`specs.ContainerEdits` restricted to
the fields this core produces). -/
structure ContainerEditsData where
  deviceNodes : List DeviceNode
  mounts : List Mount
  hooks : List Hook
  additionalGIDs : List Nat
deriving DecidableEq

/-- `NewContainerEdits` from the edits package: the empty edit aggregate. -/
def NewContainerEdits : ContainerEditsData :=
  { deviceNodes := [], mounts := [], hooks := [], additionalGIDs := [] }

/-- Modelled from the spec: `cdi.ContainerEdits.Append` of the external CDI
library, whose aggregation is append-only — each resource list of the appended
edits is concatenated onto the aggregate. -/
def appendEdits (c e : ContainerEditsData) : ContainerEditsData :=
  { deviceNodes := c.deviceNodes ++ e.deviceNodes,
    mounts := c.mounts ++ e.mounts,
    hooks := c.hooks ++ e.hooks,
    additionalGIDs := c.additionalGIDs ++ e.additionalGIDs }

/-- `device.toEdits` from the edits package: one device node per device and,
when additional GIDs are enabled, the device's required GID whenever it is
nonzero.  The Go error return is always `nil` (its only error source,
`toSpec`, never fails), so the conversion is modelled as total. -/
def Device.toEdits (lstat : String → Option Stat_t) (allowAdditionalGIDs : Bool)
    (d : Device) : ContainerEditsData :=
  let additionalGIDs : List Nat :=
    if allowAdditionalGIDs then
      let requiredGID := getRequiredGID lstat d
      if requiredGID ≠ 0 then [requiredGID] else []
    else []
  { deviceNodes := [d.toSpec], mounts := [], hooks := [],
    additionalGIDs := additionalGIDs }

/-- Modelled from the spec: `mount.toEdits` (its file is not among the staged
sources) appends the discovered mount entry unchanged. -/
def Mount.toEdits (m : Mount) : ContainerEditsData :=
  { NewContainerEdits with mounts := [m] }

/-- Modelled from the spec: `hook.toEdits` (its file is not among the staged
sources) appends the discovered hook entry unchanged. -/
def Hook.toEdits (h : Hook) : ContainerEditsData :=
  { NewContainerEdits with hooks := [h] }

/-- A `discover.Discover` as seen by one `EditsFromDiscoverer` call: the
result each of the three discovery calls would produce. -/
structure Discover where
  devices : Except String (List Device)
  mounts : Except String (List Mount)
  hooks : Except String (List Hook)

/-- `options.EditsFromDiscoverer` from the edits package: queries devices,
mounts and hooks in that order, aborting with a wrapped error naming the
failing phase; on success appends one device edit per device, one mount edit
per mount and one hook edit per hook to a fresh aggregate. -/
def EditsFromDiscoverer (lstat : String → Option Stat_t) (allowAdditionalGIDs : Bool)
    (d : Discover) : Except String ContainerEditsData :=
  match d.devices with
  | .error e => .error ("failed to discover devices: " ++ e)
  | .ok devices =>
    match d.mounts with
    | .error e => .error ("failed to discover mounts: " ++ e)
    | .ok mounts =>
      match d.hooks with
      | .error e => .error ("failed to discover hooks: " ++ e)
      | .ok hooks =>
        let c := devices.foldl
          (fun c dev => appendEdits c (Device.toEdits lstat allowAdditionalGIDs dev))
          NewContainerEdits
        let c := mounts.foldl (fun c m => appendEdits c m.toEdits) c
        let c := hooks.foldl (fun c h => appendEdits c h.toEdits) c
        .ok c

/-- The `edits` struct of the edits package: a CDI `ContainerEdits` wrapper,
whose inner `*specs.ContainerEdits` pointer may be nil. -/
structure EditsModifier where
  containerEdits : Option ContainerEditsData

/-- `edits.Modify` from the edits package, applied to a possibly-nil receiver:
a nil receiver or a nil inner edit set is a no-op success; otherwise the
external `cdi.ContainerEdits.Apply` primitive (passed in as `applyEdits`)
merges the edits into the spec. -/
def Modify {α : Type} (applyEdits : α → Except String α)
    (e : Option EditsModifier) (spec : α) : Except String α :=
  match e with
  | none => .ok spec
  | some ed =>
    match ed.containerEdits with
    | none => .ok spec
    | some _ => applyEdits spec

/-- A Go call result that can also end in a runtime panic. -/
inductive GoResult (α : Type) where
  | ok (val : α)
  | err (msg : String)
  | panic
deriving DecidableEq

/-- `Driver.libcudaPath` from the lookup/root package: locates
`libcuda.so.*.*` (the locator call is passed in as its result `locate`),
selects the first match, and warns when several candidates exist.  The Go code
indexes `paths[0]` before checking the length, so a non-error empty result
would panic. -/
def libcudaPath (locate : LocateResult) : GoResult String × List String :=
  match locate with
  | .error e => (.err ("failed to locate libcuda.so.*.*: " ++ e), [])
  | .ok [] => (.panic, [])
  | .ok (p :: rest) =>
    (.ok p,
      if rest.isEmpty then []
      else ["Selecting " ++ p ++ " out of multiple libcuda.so paths."])

/-- `Driver.Version` from the lookup/root package, on a fresh driver (no
version cached yet): the version is the base name of the located
`libcuda.so.*.*` path with the prefix `libcuda.so.` removed, and an empty
suffix is an error. -/
def Version (locate : LocateResult) : GoResult String × List String :=
  match libcudaPath locate with
  | (.err e, w) => (.err ("failed to locate libcuda.so: " ++ e), w)
  | (.panic, w) => (.panic, w)
  | (.ok p, w) =>
    let version := trimStart (filepathBase p) "libcuda.so."
    if version = "" then
      (.err ("failed to determine libcuda.so version from path: " ++ p), w)
    else (.ok version, w)

/-- Outcome of `resolvePackageType`: a package type, or a runtime panic. -/
inductive PkgResult where
  | ok (packageType : String)
  | panic
deriving DecidableEq

/-- Model of Go `filepath.Join hostRoot p` for the rooted probe paths used by
`resolvePackageType`. -/
def joinPath (hostRoot p : String) : String :=
  if hostRoot = "" then p else hostRoot ++ p

/-- `resolvePackageType` from the toolkit installer.  `os.Stat` is passed in
as an oracle returning `some isDir` on success and `none` on error.  The Go
condition is `err != nil && !info.IsDir()`: when the stat succeeds the branch
is skipped (short circuit), and when the stat fails `info` is a nil interface,
so evaluating `info.IsDir()` panics. -/
def resolvePackageType (stat : String → Option Bool) (hostRoot packageType : String) :
    PkgResult :=
  if packageType ≠ "" ∧ packageType ≠ "auto" then .ok packageType
  else
    match stat (joinPath hostRoot "/usr/bin/rpm") with
    | none => .panic
    | some _ =>
      match stat (joinPath hostRoot "/usr/bin/dpkg") with
      | none => .panic
      | some _ => .ok "deb"

/-- One iteration of the `create-dot-so-symlinks` loop of
`tools/container/toolkit/toolkit.go`: for a located library path, when its
name ends in `.so.<version>`, glob for the single sibling `<base>.so.[0-9]`
and symlink the sibling's base name to the un-suffixed `.so` path.  The
`filepath.Glob` call and the success of `os.Symlink` are passed in as oracles;
`some (target, link)` is the symlink created, `none` means the library was
skipped. -/
def processLib (glob : String → Except String (List String))
    (symlinkOk : String → String → Bool) (driverVersion lib : String) :
    Option (String × String) :=
  if !strEndsWith lib (".so." ++ driverVersion) then none
  else
    let libSoPath := trimEnd lib ("." ++ driverVersion)
    match glob (libSoPath ++ ".[0-9]") with
    | .error _ => none
    | .ok libSoXPaths =>
      if libSoXPaths.length ≠ 1 then none
      else
        let target := filepathBase (libSoXPaths.headD "")
        if symlinkOk target libSoPath then some (target, libSoPath) else none

/-- The library loop of the `create-dot-so-symlinks` command's `run`: every
library is processed best-effort and the loop always returns success, yielding
the symlinks that were created. -/
def createDotSoSymlinks (glob : String → Except String (List String))
    (symlinkOk : String → String → Bool) (driverVersion : String)
    (libs : List String) : Except String (List (String × String)) :=
  .ok (libs.filterMap (processLib glob symlinkOk driverVersion))

/-! ## Helper lemmas -/

lemma land_mask_six (m : Nat) : (m &&& 0o777) &&& 0o6 = m &&& 0o6 := by
  apply Nat.eq_of_testBit_eq
  intro i
  rw [Nat.testBit_and, Nat.testBit_and, Nat.testBit_and]
  cases h6 : Nat.testBit 6 i with
  | false => simp
  | true =>
    have hge : 2 ^ i ≤ 6 := Nat.testBit_implies_ge h6
    have hi : i < 9 := by
      by_contra hc
      push_neg at hc
      have hpow : (2 : Nat) ^ 9 ≤ 2 ^ i := Nat.pow_le_pow_right (by norm_num) hc
      omega
    have h511 : Nat.testBit 511 i = true := by
      have h9 : (511 : Nat) = 2 ^ 9 - 1 := by norm_num
      rw [h9, Nat.testBit_two_pow_sub_one]
      simpa using hi
    simp [h511]

lemma getRequiredGID_eq (lstat : String → Option Stat_t) (d : Device) (p : String)
    (hp : p = if d.hostPath = "" then d.path else d.hostPath) :
    getRequiredGID lstat d =
      if p = "" then 0
      else
        match lstat p with
        | none => 0
        | some s =>
          if s.mode &&& S_IFMT ≠ S_IFCHR then 0
          else if s.mode &&& 0o6 = 0 then s.gid else 0 := by
  subst hp
  simp only [getRequiredGID, land_mask_six]

/-! ## Claim theorems -/

/-- C1: `getRequiredGID` never raises an error; it returns 0 when both device
paths are empty, when the stat'd path (HostPath if non-empty, else Path)
cannot be stat'd, or when the file is not char-special; for a char-special
file it returns the file's owning group id exactly when both "other"
permission bits (read `0o4` and write `0o2`, together the mask `0o6`) are
absent, and 0 when either is set. -/
theorem getRequiredGID_correct (lstat : String → Option Stat_t) (d : Device)
    (p : String) (hp : p = if d.hostPath = "" then d.path else d.hostPath) :
    (d.hostPath = "" → d.path = "" → getRequiredGID lstat d = 0) ∧
    (lstat p = none → getRequiredGID lstat d = 0) ∧
    (∀ s, lstat p = some s → s.mode &&& S_IFMT ≠ S_IFCHR →
        getRequiredGID lstat d = 0) ∧
    (∀ s, p ≠ "" → lstat p = some s → s.mode &&& S_IFMT = S_IFCHR →
        s.mode &&& 0o6 = 0 → getRequiredGID lstat d = s.gid) ∧
    (∀ s, lstat p = some s → s.mode &&& 0o6 ≠ 0 → getRequiredGID lstat d = 0) := by
  have he := getRequiredGID_eq lstat d p hp
  by_cases hP : p = ""
  · rw [he, if_pos hP]
    refine ⟨fun _ _ => rfl, fun _ => rfl, fun _ _ _ => rfl, ?_, fun _ _ _ => rfl⟩
    intro s hne _ _ _
    exact absurd hP hne
  · rw [he, if_neg hP]
    refine ⟨?_, ?_, ?_, ?_, ?_⟩
    · intro h1 h2
      rw [hp, if_pos h1] at hP
      exact absurd h2 hP
    · intro hn
      rw [hn]
    · intro s hs hchar
      rw [hs]
      simp [hchar]
    · intro s _ hs hchar hperm
      rw [hs]
      simp [hchar, hperm]
    · intro s hs hperm
      rw [hs]
      by_cases hchar : s.mode &&& S_IFMT = S_IFCHR
      · simp [hchar, hperm]
      · simp [hchar]

theorem getRequiredGID_correct_witness :
    getRequiredGID (fun _ => some ⟨0o020660, 44⟩) ⟨"/dev/nvidia0", "/dev/nvidia0"⟩ = 44 := by
  have h := getRequiredGID_correct (fun _ => some ⟨0o020660, 44⟩)
    ⟨"/dev/nvidia0", "/dev/nvidia0"⟩ "/dev/nvidia0" (by decide)
  exact h.2.2.2.1 ⟨0o020660, 44⟩ (by decide) rfl (by decide) (by decide)

/-- C3 counterexample: a device with empty HostPath and a different, non-empty
Path has its HostPath serialized as empty (omitted) although HostPath and Path
differ, so the omission does not happen "exactly when" the two are equal. -/
theorem toSpec_counterexample :
    (Device.toSpec { hostPath := "", path := "/dev/nvidia0" }).hostPath = "" ∧
    ({ hostPath := "", path := "/dev/nvidia0" } : Device).hostPath ≠
      ({ hostPath := "", path := "/dev/nvidia0" } : Device).path := by
  exact ⟨by decide, by decide⟩

/-- C3 (amended): the serialized device node carries an empty (omitted)
HostPath exactly when HostPath equals Path or HostPath is itself empty; for
every device whose HostPath is non-empty and differs from Path, the serialized
node carries both fields, present and distinct, and unchanged. -/
theorem toSpec_hostPath_collapse (d : Device) :
    ((Device.toSpec d).hostPath = "" ↔ (d.hostPath = d.path ∨ d.hostPath = "")) ∧
    (Device.toSpec d).path = d.path ∧
    (d.hostPath ≠ "" → d.hostPath ≠ d.path →
      (Device.toSpec d).hostPath = d.hostPath ∧
      (Device.toSpec d).hostPath ≠ (Device.toSpec d).path) := by
  by_cases h : d.hostPath = d.path
  · refine ⟨?_, rfl, ?_⟩
    · simp [Device.toSpec, h]
    · intro _ hne
      exact absurd h hne
  · refine ⟨?_, rfl, ?_⟩
    · simp [Device.toSpec, h]
    · intro hne hnep
      simp [Device.toSpec, h]

theorem toSpec_hostPath_collapse_witness :
    (Device.toSpec { hostPath := "/host/dev/nvidia0", path := "/dev/nvidia0" }).hostPath =
      "/host/dev/nvidia0" ∧
    (Device.toSpec { hostPath := "/host/dev/nvidia0", path := "/dev/nvidia0" }).hostPath ≠
      (Device.toSpec { hostPath := "/host/dev/nvidia0", path := "/dev/nvidia0" }).path :=
  (toSpec_hostPath_collapse { hostPath := "/host/dev/nvidia0", path := "/dev/nvidia0" }).2.2
    (by decide) (by decide)

/-- C6: evaluation at the failing input.  With `packageType = "auto"` and both
`/usr/bin/rpm` and `/usr/bin/dpkg` present as regular files under the host
root, the code returns "deb", never "rpm"; with the rpm executable present and
the dpkg stat failing it panics; an explicit non-"auto" package type is passed
through unchanged.  The stat-error condition of the Go code is inverted with
respect to the documented intent. -/
theorem resolvePackageType_failing_eval :
    resolvePackageType (fun _ => some false) "" "auto" = .ok "deb" ∧
    resolvePackageType (fun _ => some false) "" "auto" ≠ .ok "rpm" ∧
    resolvePackageType (fun p => if p = "/usr/bin/rpm" then some false else none) "" "auto"
      = .panic ∧
    resolvePackageType (fun _ => none) "" "rpm" = .ok "rpm" := by
  exact ⟨by decide, by decide, by decide, by decide⟩

/-- C9: applying edits via `Modify` is a no-op success when the applier is nil
or its underlying container-edits value is nil; the target spec is returned
unchanged. -/
theorem Modify_nil_noop {α : Type} (applyEdits : α → Except String α)
    (e : Option EditsModifier) (spec : α)
    (h : e = none ∨ ∃ ed, e = some ed ∧ ed.containerEdits = none) :
    Modify applyEdits e spec = .ok spec := by
  rcases h with h | ⟨ed, he, hc⟩
  · simp [Modify, h]
  · subst he
    simp [Modify, hc]

theorem Modify_nil_noop_witness :
    Modify (fun n => Except.ok (n + 1)) (none : Option EditsModifier) (0 : Nat) =
      Except.ok 0 ∧
    Modify (fun n => Except.ok (n + 1)) (some ⟨none⟩) (0 : Nat) = Except.ok 0 :=
  ⟨Modify_nil_noop _ _ _ (Or.inl rfl),
   Modify_nil_noop _ _ _ (Or.inr ⟨⟨none⟩, rfl, rfl⟩)⟩

/-- C10: the additional-GID list of a device edit never contains 0 — a GID is
appended only when `getRequiredGID` is nonzero — so a restricted char device
owned by group 0 yields no additional GID (second conjunct: a char device with
mode `0o020660` and gid 0). -/
theorem additionalGIDs_never_zero :
    (∀ (lstat : String → Option Stat_t) (allow : Bool) (d : Device),
      0 ∉ (Device.toEdits lstat allow d).additionalGIDs) ∧
    (Device.toEdits (fun _ => some ⟨0o020660, 0⟩) true
      { hostPath := "/dev/nvidia0", path := "/dev/nvidia0" }).additionalGIDs = [] := by
  constructor
  · intro lstat allow d
    simp only [Device.toEdits]
    split
    · split
      · rename_i hg
        intro hmem
        simp at hmem
        exact hg hmem.symm
      · simp
    · simp
  · decide

lemma foldl_appendEdits {α : Type} (f : α → ContainerEditsData) (xs : List α)
    (c : ContainerEditsData) :
    xs.foldl (fun acc x => appendEdits acc (f x)) c =
      { deviceNodes := c.deviceNodes ++ xs.flatMap (fun x => (f x).deviceNodes),
        mounts := c.mounts ++ xs.flatMap (fun x => (f x).mounts),
        hooks := c.hooks ++ xs.flatMap (fun x => (f x).hooks),
        additionalGIDs := c.additionalGIDs ++ xs.flatMap (fun x => (f x).additionalGIDs) } := by
  induction xs generalizing c with
  | nil => cases c; simp
  | cons x xs ih =>
    rw [List.foldl_cons, ih]
    simp [appendEdits, List.append_assoc]

lemma flatMap_singleton_map {α β : Type} (f : α → β) (xs : List α) :
    xs.flatMap (fun x => [f x]) = xs.map f := by
  induction xs <;> simp_all

lemma flatMap_id_singleton {α : Type} (xs : List α) :
    xs.flatMap (fun x => [x]) = xs := by
  induction xs <;> simp_all

lemma flatMap_const_nil {α β : Type} (xs : List α) :
    xs.flatMap (fun _ => ([] : List β)) = [] := by
  induction xs <;> simp_all

lemma toEdits_additionalGIDs (lstat : String → Option Stat_t) (allow : Bool)
    (d : Device) :
    (Device.toEdits lstat allow d).additionalGIDs =
      if allow ∧ getRequiredGID lstat d ≠ 0 then [getRequiredGID lstat d] else [] := by
  simp only [Device.toEdits]
  by_cases ha : allow
  · by_cases hg : getRequiredGID lstat d ≠ 0 <;> simp [ha, hg]
  · simp [ha]

lemma toEdits_deviceNodes (lstat : String → Option Stat_t) (allow : Bool)
    (d : Device) :
    (Device.toEdits lstat allow d).deviceNodes = [d.toSpec] := rfl

lemma toEdits_mounts (lstat : String → Option Stat_t) (allow : Bool) (d : Device) :
    (Device.toEdits lstat allow d).mounts = [] := rfl

lemma toEdits_hooks (lstat : String → Option Stat_t) (allow : Bool) (d : Device) :
    (Device.toEdits lstat allow d).hooks = [] := rfl

/-- C2: `EditsFromDiscoverer` consults devices, mounts and hooks in that
order; a failing phase yields an error naming that phase and no edit set; on
success the edit set has exactly the serialized device node of each discovered
device (in order, with the device's required GID when additional GIDs are
enabled and the GID is nonzero), exactly the discovered mounts and exactly the
discovered hooks. -/
theorem EditsFromDiscoverer_correct (lstat : String → Option Stat_t) (allow : Bool)
    (d : Discover) :
    (∀ e, d.devices = .error e →
        EditsFromDiscoverer lstat allow d =
          .error ("failed to discover devices: " ++ e)) ∧
    (∀ devs e, d.devices = .ok devs → d.mounts = .error e →
        EditsFromDiscoverer lstat allow d =
          .error ("failed to discover mounts: " ++ e)) ∧
    (∀ devs ms e, d.devices = .ok devs → d.mounts = .ok ms → d.hooks = .error e →
        EditsFromDiscoverer lstat allow d =
          .error ("failed to discover hooks: " ++ e)) ∧
    (∀ devs ms hs, d.devices = .ok devs → d.mounts = .ok ms → d.hooks = .ok hs →
        EditsFromDiscoverer lstat allow d =
          .ok { deviceNodes := devs.map Device.toSpec,
                mounts := ms,
                hooks := hs,
                additionalGIDs := devs.flatMap (fun dev =>
                  if allow ∧ getRequiredGID lstat dev ≠ 0
                  then [getRequiredGID lstat dev] else []) }) := by
  refine ⟨?_, ?_, ?_, ?_⟩
  · intro e h
    simp [EditsFromDiscoverer, h]
  · intro devs e h1 h2
    simp [EditsFromDiscoverer, h1, h2]
  · intro devs ms e h1 h2 h3
    simp [EditsFromDiscoverer, h1, h2, h3]
  · intro devs ms hs h1 h2 h3
    simp only [EditsFromDiscoverer, h1, h2, h3]
    rw [foldl_appendEdits, foldl_appendEdits, foldl_appendEdits]
    simp only [NewContainerEdits, List.nil_append, List.append_assoc]
    congr 1
    simp [Mount.toEdits, Hook.toEdits, NewContainerEdits, toEdits_deviceNodes,
      toEdits_mounts, toEdits_hooks, toEdits_additionalGIDs,
      flatMap_singleton_map, flatMap_id_singleton, flatMap_const_nil]

theorem EditsFromDiscoverer_correct_witness :
    EditsFromDiscoverer (fun _ => none) true
      { devices := .ok [{ hostPath := "/dev/a", path := "/dev/a" },
                        { hostPath := "/dev/b", path := "/dev/b" }],
        mounts := .ok [{ hostPath := "/lib/libx.so.1", path := "/lib/libx.so.1",
                         options := [] }],
        hooks := .ok [{ lifecycle := "createContainer", path := "/usr/bin/nvidia-ctk",
                        args := [] }] } =
      .ok { deviceNodes := [{ hostPath := "", path := "/dev/a" },
                            { hostPath := "", path := "/dev/b" }],
            mounts := [{ hostPath := "/lib/libx.so.1", path := "/lib/libx.so.1",
                         options := [] }],
            hooks := [{ lifecycle := "createContainer", path := "/usr/bin/nvidia-ctk",
                        args := [] }],
            additionalGIDs := [] } := by
  have h := (EditsFromDiscoverer_correct (fun _ => none) true
    { devices := .ok [{ hostPath := "/dev/a", path := "/dev/a" },
                      { hostPath := "/dev/b", path := "/dev/b" }],
      mounts := .ok [{ hostPath := "/lib/libx.so.1", path := "/lib/libx.so.1",
                       options := [] }],
      hooks := .ok [{ lifecycle := "createContainer", path := "/usr/bin/nvidia-ctk",
                      args := [] }] }).2.2.2 _ _ _ rfl rfl rfl
  rw [h]
  rfl

lemma foldl_folder_args (fs : List String) (init : List String) :
    fs.foldl (fun a f => a ++ ["--folder", f]) init =
      init ++ fs.flatMap (fun f => ["--folder", f]) := by
  induction fs generalizing init with
  | nil => simp
  | cons f fs ih =>
    rw [List.foldl_cons, ih]
    simp [List.append_assoc]

/-- C4 counterexample: with the locator finding /usr/bin/nvidia-ctk and the
library mounts of the spec's example, the emitted hook's argument list is not
`hook update-ldcache --folder /a --folder /b`: it additionally starts with the
base name of the hook executable. -/
theorem ldcacheHook_args_counterexample :
    (CreateLDCacheUpdateHook (.ok ["/usr/bin/nvidia-ctk"]) "nvidia-ctk"
        "/usr/bin/nvidia-ctk" ["/a/libx.so.1", "/a/liby.so.1", "/b/libz.so.1"]).1.args ≠
      ["hook", "update-ldcache", "--folder", "/a", "--folder", "/b"] ∧
    (CreateLDCacheUpdateHook (.ok ["/usr/bin/nvidia-ctk"]) "nvidia-ctk"
        "/usr/bin/nvidia-ctk" ["/a/libx.so.1", "/a/liby.so.1", "/b/libz.so.1"]).1.args =
      ["nvidia-ctk", "hook", "update-ldcache", "--folder", "/a", "--folder", "/b"] := by
  exact ⟨by decide, by decide⟩

/-- C4 (amended): the ldcache-update discoverer's Hooks emits exactly one
hook; its executable path is the first locator match for the configured
executable, falling back to the fixed default path /usr/bin/nvidia-ctk (with a
warning) when the locator errors or finds nothing; its arguments are the base
name of the hook executable followed by `hook update-ldcache` and one
`--folder <dir>` pair per unique containing directory, directories
deduplicated in first-seen order; `uniqueFolders` on the spec's example
returns ["/a", "/b"]. -/
theorem ldcacheUpdateHook_correct (locate : LocateResult)
    (execuable : String) (libraries : List String) :
    (∀ t rest, locate = .ok (t :: rest) →
        (CreateLDCacheUpdateHook locate execuable nvidiaCTKDefaultFilePath
          libraries).1.path = t) ∧
    (∀ e, locate = .error e →
        (CreateLDCacheUpdateHook locate execuable nvidiaCTKDefaultFilePath
          libraries).1.path = "/usr/bin/nvidia-ctk" ∧
        (CreateLDCacheUpdateHook locate execuable nvidiaCTKDefaultFilePath
          libraries).2 ≠ []) ∧
    (locate = .ok [] →
        (CreateLDCacheUpdateHook locate execuable nvidiaCTKDefaultFilePath
          libraries).1.path = "/usr/bin/nvidia-ctk" ∧
        (CreateLDCacheUpdateHook locate execuable nvidiaCTKDefaultFilePath
          libraries).2 ≠ []) ∧
    ((CreateLDCacheUpdateHook locate execuable nvidiaCTKDefaultFilePath
        libraries).1.args =
      [filepathBase (CreateLDCacheUpdateHook locate execuable nvidiaCTKDefaultFilePath
          libraries).1.path, "hook", "update-ldcache"] ++
        (uniqueFolders libraries).flatMap (fun f => ["--folder", f])) ∧
    (∀ mounts, ldconfigHooks (.ok mounts) locate execuable =
        .ok [(CreateLDCacheUpdateHook locate execuable nvidiaCTKDefaultFilePath
          (getLibraryPaths mounts)).1]) ∧
    uniqueFolders ["/a/libx.so.1", "/a/liby.so.1", "/b/libz.so.1"] = ["/a", "/b"] := by
  refine ⟨?_, ?_, ?_, ?_, ?_, by decide⟩
  · intro t rest h
    simp [CreateLDCacheUpdateHook, h]
  · intro e h
    simp [CreateLDCacheUpdateHook, h, nvidiaCTKDefaultFilePath]
  · intro h
    simp [CreateLDCacheUpdateHook, h, nvidiaCTKDefaultFilePath]
  · simp only [CreateLDCacheUpdateHook, foldl_folder_args]
  · intro mounts
    simp [ldconfigHooks]

/-- C5: `Version` fails when the locator fails (a required locate with zero
matches is a locator error), selects the first of multiple matches and warns
exactly when the match was ambiguous, and parses the version as the base-name
suffix after `libcuda.so.`, failing when that suffix is empty. -/
theorem Version_correct (locate : LocateResult) :
    (∀ e, locate = .error e →
        (Version locate).1 =
          .err ("failed to locate libcuda.so: " ++
            ("failed to locate libcuda.so.*.*: " ++ e))) ∧
    (∀ p rest, locate = .ok (p :: rest) →
        ((Version locate).2 ≠ [] ↔ rest ≠ []) ∧
        (trimStart (filepathBase p) "libcuda.so." = "" →
          (Version locate).1 =
            .err ("failed to determine libcuda.so version from path: " ++ p)) ∧
        (trimStart (filepathBase p) "libcuda.so." ≠ "" →
          (Version locate).1 = .ok (trimStart (filepathBase p) "libcuda.so."))) := by
  constructor
  · intro e h
    simp [Version, libcudaPath, h]
  · intro p rest h
    refine ⟨?_, ?_, ?_⟩
    · cases rest <;> simp [Version, libcudaPath, h] <;> split <;> simp
    · intro hv
      simp [Version, libcudaPath, h, hv]
    · intro hv
      simp [Version, libcudaPath, h, hv]

theorem Version_correct_witness :
    (Version (.ok ["/lib64/libcuda.so.550.54.15", "/lib/libcuda.so.535.86.10"])).1 =
      .ok "550.54.15" ∧
    (Version (.ok ["/lib64/libcuda.so.550.54.15", "/lib/libcuda.so.535.86.10"])).2 ≠ [] := by
  have h := (Version_correct
    (.ok ["/lib64/libcuda.so.550.54.15", "/lib/libcuda.so.535.86.10"])).2
    "/lib64/libcuda.so.550.54.15" ["/lib/libcuda.so.535.86.10"] rfl
  exact ⟨(h.2.2 (by decide)).trans (by decide), h.1.mpr (by decide)⟩

/-- C7: the create-dot-so-symlinks loop always returns success; a symlink is
recorded for a library only when its name ends in `.so.<version>`, the glob
for `<base>.so.[0-9]` succeeds with exactly one sibling and the symlink call
succeeds, in which case the link maps the sibling's base name to the
un-suffixed `.so` path; a library with zero or several sibling candidates, a
failing glob, or a failing symlink call is skipped silently. -/
theorem createDotSoSymlinks_correct (glob : String → Except String (List String))
    (symlinkOk : String → String → Bool) (version : String) (libs : List String) :
    (∃ links, createDotSoSymlinks glob symlinkOk version libs = .ok links) ∧
    (∀ lib target link, processLib glob symlinkOk version lib = some (target, link) →
        strEndsWith lib (".so." ++ version) = true ∧
        link = trimEnd lib ("." ++ version) ∧
        ∃ m, glob (link ++ ".[0-9]") = .ok [m] ∧ target = filepathBase m ∧
          symlinkOk target link = true) ∧
    (∀ lib, strEndsWith lib (".so." ++ version) = false →
        processLib glob symlinkOk version lib = none) ∧
    (∀ lib e, glob (trimEnd lib ("." ++ version) ++ ".[0-9]") = .error e →
        processLib glob symlinkOk version lib = none) ∧
    (∀ lib ms, glob (trimEnd lib ("." ++ version) ++ ".[0-9]") = .ok ms →
        ms.length ≠ 1 → processLib glob symlinkOk version lib = none) ∧
    (∀ lib m, strEndsWith lib (".so." ++ version) = true →
        glob (trimEnd lib ("." ++ version) ++ ".[0-9]") = .ok [m] →
        symlinkOk (filepathBase m) (trimEnd lib ("." ++ version)) = true →
        processLib glob symlinkOk version lib =
          some (filepathBase m, trimEnd lib ("." ++ version))) ∧
    (∀ lib m, glob (trimEnd lib ("." ++ version) ++ ".[0-9]") = .ok [m] →
        symlinkOk (filepathBase m) (trimEnd lib ("." ++ version)) = false →
        processLib glob symlinkOk version lib = none) := by
  refine ⟨⟨libs.filterMap (processLib glob symlinkOk version), rfl⟩, ?_, ?_, ?_, ?_, ?_, ?_⟩
  · intro lib target link h
    by_cases hend : strEndsWith lib (".so." ++ version)
    · simp only [processLib, hend, Bool.not_true, Bool.false_eq_true, if_false] at h
      refine ⟨hend, ?_⟩
      rcases hg : glob (trimEnd lib ("." ++ version) ++ ".[0-9]") with e | ms
      · rw [hg] at h
        simp at h
      · rw [hg] at h
        by_cases hlen : ms.length ≠ 1
        · simp [hlen] at h
        · push_neg at hlen
          rcases ms with _ | ⟨m, _ | _⟩ <;> simp_all
          by_cases hs : symlinkOk (filepathBase m) (trimEnd lib ("." ++ version)) <;>
            simp_all
    · simp [processLib, hend] at h
  · intro lib hend
    simp [processLib, hend]
  · intro lib e hg
    simp only [processLib, hg]
    split <;> rfl
  · intro lib ms hg hlen
    simp only [processLib, hg, hlen]
    split
    · rfl
    · simp [hlen]
  · intro lib m hend hg hs
    simp [processLib, hend, hg, hs]
  · intro lib m hg hs
    simp only [processLib, hg]
    split
    · rfl
    · simp [hs]

theorem createDotSoSymlinks_correct_witness :
    processLib (fun _ => .ok ["/lib/libfoo.so.5"]) (fun _ _ => true) "550.54"
      "/lib/libfoo.so.550.54" = some ("libfoo.so.5", "/lib/libfoo.so") := by
  exact (createDotSoSymlinks_correct (fun _ => .ok ["/lib/libfoo.so.5"])
    (fun _ _ => true) "550.54" []).2.2.2.2.2.1 "/lib/libfoo.so.550.54"
    "/lib/libfoo.so.5" (by decide) rfl rfl

lemma splitSo_ne_nil (cs : List Char) : splitSo cs ≠ [] := by
  rw [splitSo.eq_def]
  split
  · simp
  · split <;> simp
  · simp

lemma hasSo_drop (cs : List Char) (n : Nat) (h : hasSo (cs.drop n) = true) :
    hasSo cs = true := by
  induction cs generalizing n with
  | nil => simpa using h
  | cons c cs ih =>
    cases n with
    | zero => simpa using h
    | succ n =>
      have hrest : hasSo cs = true := ih n (by simpa using h)
      simp [hasSo, hrest]

lemma splitSo_len_ge_two (cs : List Char) (h : hasSo cs = true) :
    2 ≤ (splitSo cs).length := by
  induction cs with
  | nil => simp [hasSo] at h
  | cons c cs ih =>
    rw [splitSo.eq_def]
    split
    · rename_i rest heq
      have h1 : 1 ≤ (splitSo rest).length := by
        cases hsp : splitSo rest with
        | nil => exact absurd hsp (splitSo_ne_nil rest)
        | cons p ps => simp
      simp only [List.length_cons]
      omega
    · rename_i c' rest hno heq
      injection heq with h1 h2
      subst h1
      subst h2
      have hcond : ¬(c = '.' ∧ cs.take 2 = ['s', 'o']) := by
        rintro ⟨rfl, htake⟩
        have hdecomp : cs = 's' :: 'o' :: cs.drop 2 := by
          conv_lhs => rw [← List.take_append_drop 2 cs]
          rw [htake]
          rfl
        exact hno (cs.drop 2) rfl hdecomp
      have hcs : hasSo cs = true := by
        simp only [hasSo, Bool.or_eq_true, decide_eq_true_eq] at h
        tauto
      have h2 := ih hcs
      cases hsp : splitSo cs with
      | nil => exact absurd hsp (splitSo_ne_nil cs)
      | cons p ps =>
        rw [hsp] at h2
        show 2 ≤ ((c :: p) :: ps).length
        simp only [List.length_cons] at h2 ⊢
        omega
    · rename_i heq
      exact absurd heq (List.cons_ne_nil c cs)

lemma listHasPre_dot (lastPart : List Char) :
    listHasPre ['.'] lastPart = true ↔ ∃ rest, lastPart = '.' :: rest := by
  cases lastPart with
  | nil => simp [listHasPre]
  | cons c rest =>
    simp only [listHasPre, Bool.and_eq_true, beq_iff_eq]
    constructor
    · rintro ⟨rfl, -⟩
      exact ⟨rest, rfl⟩
    · rintro ⟨rest', heq⟩
      injection heq with h1 h2
      refine ⟨h1.symm, ?_⟩
      trivial

/-- C8: `isLibName` accepts `libfoo.so`, `libfoo.so.1` and `libfoo.so.1.2.3`
and rejects `libfoo.soup`, `foo.so` and `libfoo.sox`; in general, once the
base name matches the glob `lib?*.so*`, the name is accepted exactly when the
fragment after the last `.so` occurrence is empty or begins with `.`. -/
theorem isLibName_correct :
    isLibName "libfoo.so" = true ∧ isLibName "libfoo.so.1" = true ∧
    isLibName "libfoo.so.1.2.3" = true ∧ isLibName "libfoo.soup" = false ∧
    isLibName "foo.so" = false ∧ isLibName "libfoo.sox" = false ∧
    (∀ filename,
      matchLibSoGlob ((filepathBase filename).toList) = true →
      (isLibName filename = true ↔
        ((splitSo ((filepathBase filename).toList)).getLastD [] = [] ∨
         ∃ rest, (splitSo ((filepathBase filename).toList)).getLastD [] = '.' :: rest))) := by
  refine ⟨by decide, by decide, by decide, by decide, by decide, by decide, ?_⟩
  intro filename hmatch
  have hso : hasSo ((filepathBase filename).toList) = true := by
    have h4 : hasSo (((filepathBase filename).toList).drop 4) = true := by
      simp only [matchLibSoGlob, Bool.and_eq_true] at hmatch
      exact hmatch.2
    exact hasSo_drop _ 4 h4
  have hlen := splitSo_len_ge_two _ hso
  have hne : ¬(((splitSo ((filepathBase filename).toList)).length == 1) = true) := by
    simp only [beq_iff_eq]
    omega
  simp only [isLibName, hmatch, if_true]
  rw [if_neg hne]
  simp only [Bool.or_eq_true, beq_iff_eq, listHasPre_dot]

end Nvct
